import Mathlib

/-!
Verification of the IT Job Portal backend (FastAPI, in-memory tables).

The Python source keeps three module-level dictionaries (`users`, `jobs`,
`applications`) and two auto-increment counters (`last_job_id`,
`last_app_id`).  We embed those as an explicit state record `St`, with
Python `dict`s as association lists carrying unique keys, and each HTTP
handler as a pure function from the state and the request data to a pair
of `Except HTTPError result` and the resulting state (stateful handlers
return the state to expose exactly when mutation happens relative to the
error checks, as in the source).  Timestamps (`datetime.utcnow()`) are
modelled as `Nat` arguments, JWTs as decoded payload records (a `none`
token stands for a token whose signature/shape check fails).
-/

set_option autoImplicit false

namespace JobPortal

/-! ### Python dicts as association lists -/

/-- First-match lookup: `d.get(k)` on a Python dict (keys are unique there,
so first match is the match). -/
def dictGet {α β : Type} [DecidableEq α] : List (α × β) → α → Option β
  | [], _ => none
  | (k', v) :: rest, k => if k' = k then some v else dictGet rest k

/-- `d[k] = v` on a Python dict: replace in place if the key is present,
append otherwise (Python dicts keep insertion order). -/
def dictSet {α β : Type} [DecidableEq α] : List (α × β) → α → β → List (α × β)
  | [], k, v => [(k, v)]
  | (k', v') :: rest, k, v =>
      if k' = k then (k, v) :: rest else (k', v') :: dictSet rest k v

/-- `del d[k]` on a Python dict: drop the (unique) entry with key `k`. -/
def dictDel {α β : Type} [DecidableEq α] : List (α × β) → α → List (α × β)
  | [], _ => []
  | (k', v') :: rest, k => if k' = k then rest else (k', v') :: dictDel rest k

/-- `d.values()` in insertion order. -/
def dictValues {α β : Type} (d : List (α × β)) : List β := d.map Prod.snd

/-- The keys of the association list are pairwise distinct —
always true of a Python dict. -/
abbrev keysNodup {α β : Type} (d : List (α × β)) : Prop := (d.map Prod.fst).Nodup

/-! ### Data model (pydantic models from `main.py`) -/

/-- A stored user dict: `JobSeekerRegister.dict()` / `EmployerRegister.dict()`.
Job seekers lack the `company_name` key and employers lack `resume`,
so both are `Option`s (`none` = key absent, matching Python `dict.get`). -/
structure User where
  email : String
  password : String
  name : String
  role : String
  company_name : Option String
  resume : Option String
deriving Repr, DecidableEq

structure UserBase where
  email : String
  name : String
  role : String
deriving Repr, DecidableEq

structure JobSeekerRegister where
  email : String
  password : String
  name : String
  resume : Option String
deriving Repr, DecidableEq

structure EmployerRegister where
  email : String
  password : String
  name : String
  company_name : String
deriving Repr, DecidableEq

structure UserLogin where
  email : String
  password : String
  role : String
deriving Repr, DecidableEq

/-- `JobCreate` (= `JobBase`): the request payload for posting/updating a job. -/
structure JobCreate where
  title : String
  description : String
  company : String
  location : String
  skills : List String
  salary_min : Option Int
  salary_max : Option Int
deriving Repr, DecidableEq

/-- A stored `Job` record. -/
structure Job where
  id : Nat
  title : String
  description : String
  company : String
  location : String
  skills : List String
  salary_min : Option Int
  salary_max : Option Int
  posted_by : String
  created_at : Nat
deriving Repr, DecidableEq

/-- `ApplicationBase`: the request payload for applying to a job. -/
structure ApplicationBase where
  job_id : Nat
  seeker_email : String
  cover_letter : Option String
deriving Repr, DecidableEq

/-- A stored `Application` record. -/
structure Application where
  id : Nat
  job_id : Nat
  seeker_email : String
  cover_letter : Option String
  status : String
  applied_at : Nat
deriving Repr, DecidableEq

/-- A decoded JWT payload: `{"email": ..., "role": ..., "exp": ...}`.
`payload.get("email")` / `payload.get("role")` may be absent, hence `Option`. -/
structure TokenPayload where
  email : Option String
  role : Option String
  exp : Nat
deriving Repr, DecidableEq

/-- `HTTPException(status_code, detail)`. -/
structure HTTPError where
  status_code : Nat
  detail : String
deriving Repr, DecidableEq

/-- The module-level mutable state of `main.py`. -/
structure St where
  users : List (String × User)
  jobs : List (Nat × Job)
  applications : List (Nat × Application)
  last_job_id : Nat
  last_app_id : Nat
deriving Repr, DecidableEq

/-- The empty tables the process starts with. -/
def initSt : St := ⟨[], [], [], 0, 0⟩

/-- Response of `/dashboard/jobseeker`. -/
structure SeekerDashboard where
  user : UserBase
  num_applications : Nat
  applied_jobs : List Job
  applications : List Application
deriving Repr, DecidableEq

/-- Response of `/dashboard/employer`. -/
structure EmployerDashboard where
  user : UserBase
  num_jobs_posted : Nat
  jobs : List Job
  num_applications : Nat
  applications : List Application
deriving Repr, DecidableEq

/-! ### Auth -/

def ACCESS_TOKEN_EXPIRE_MINUTES : Nat := 60

/-- `create_access_token({"email": ..., "role": ...})`: the payload carries
the given claims plus `exp = now + 60 minutes`. -/
def create_access_token (email role : String) (now : Nat) : TokenPayload :=
  ⟨some email, some role, now + ACCESS_TOKEN_EXPIRE_MINUTES⟩

/-- `authenticate_user(email, password, role)`. -/
def authenticate_user (s : St) (email password role : String) : Option User :=
  match dictGet s.users email with
  | none => none
  | some user =>
      if user.password ≠ password ∨ user.role ≠ role then none else some user

def credentials_exception : HTTPError := ⟨401, "Could not validate credentials"⟩

/-- `get_current_user(token)`: a `none` token stands for a token rejected by
`jwt.decode` (bad signature / malformed); an expired `exp` raises `JWTError`
inside `jwt.decode` as well. -/
def get_current_user (s : St) (token : Option TokenPayload) (now : Nat) :
    Except HTTPError User :=
  match token with
  | none => .error credentials_exception
  | some payload =>
      if payload.exp ≤ now then .error credentials_exception
      else
        match payload.email, payload.role with
        | some email, some role =>
            if role = "jobseeker" ∨ role = "employer" then
              match dictGet s.users email with
              | none => .error credentials_exception
              | some user =>
                  if user.role = role then .ok user
                  else .error credentials_exception
            else .error credentials_exception
        | _, _ => .error credentials_exception

/-- `POST /auth/register/jobseeker`.  The leading length test models the
pydantic `min_length=6` constraint on `password` (checked by FastAPI before
the handler body runs, reported as a 422 validation error). -/
def register_job_seeker (s : St) (data : JobSeekerRegister) :
    Except HTTPError UserBase × St :=
  if data.password.length < 6 then (.error ⟨422, "Validation failed"⟩, s)
  else if (dictGet s.users data.email).isSome then
    (.error ⟨400, "Email already registered"⟩, s)
  else
    let u : User := ⟨data.email, data.password, data.name, "jobseeker", none, data.resume⟩
    (.ok ⟨data.email, data.name, "jobseeker"⟩,
     { s with users := dictSet s.users data.email u })

/-- `POST /auth/register/employer`. -/
def register_employer (s : St) (data : EmployerRegister) :
    Except HTTPError UserBase × St :=
  if data.password.length < 6 then (.error ⟨422, "Validation failed"⟩, s)
  else if (dictGet s.users data.email).isSome then
    (.error ⟨400, "Email already registered"⟩, s)
  else
    let u : User := ⟨data.email, data.password, data.name, "employer", some data.company_name, none⟩
    (.ok ⟨data.email, data.name, "employer"⟩,
     { s with users := dictSet s.users data.email u })

/-- `POST /auth/token`: the role is `form_data.scopes[0] if form_data.scopes
else "jobseeker"`. -/
def login (s : St) (username password : String) (scopes : List String) (now : Nat) :
    Except HTTPError TokenPayload :=
  match authenticate_user s username password (scopes.headD "jobseeker") with
  | none => .error ⟨401, "Incorrect email, password, or role"⟩
  | some user => .ok (create_access_token user.email user.role now)

/-- `POST /auth/login`: the role comes from the request body. -/
def login_alt (s : St) (data : UserLogin) (now : Nat) :
    Except HTTPError TokenPayload :=
  match authenticate_user s data.email data.password data.role with
  | none => .error ⟨401, "Incorrect email, password, or role"⟩
  | some user => .ok (create_access_token user.email user.role now)

/-! ### Jobs -/

/-- `POST /jobs/` (after `get_current_user` resolved `current_user`). -/
def post_job (s : St) (job : JobCreate) (current_user : User) (now : Nat) :
    Except HTTPError Job × St :=
  if current_user.role ≠ "employer" then
    (.error ⟨403, "Only employers can post jobs"⟩, s)
  else
    let new_id := s.last_job_id + 1
    let new_job : Job :=
      ⟨new_id, job.title, job.description,
       current_user.company_name.getD job.company,
       job.location, job.skills, job.salary_min, job.salary_max,
       current_user.email, now⟩
    (.ok new_job,
     { s with jobs := dictSet s.jobs new_id new_job, last_job_id := new_id })

/-- Python `str.lower()`: lower-case character by character. -/
def strLower (s : String) : String := ⟨s.data.map Char.toLower⟩

/-- `needle` is an initial segment of `hay`. -/
def listPre {α : Type} [DecidableEq α] : List α → List α → Bool
  | [], _ => true
  | _ :: _, [] => false
  | a :: as, b :: bs => if a = b then listPre as bs else false

/-- `needle` occurs contiguously somewhere in `hay` (Python `in` on strings,
applied to their character lists). -/
def listSub {α : Type} [DecidableEq α] (needle : List α) : List α → Bool
  | [] => listPre needle []
  | b :: bs => listPre needle (b :: bs) || listSub needle bs

/-- One iteration of the `list_jobs` filter loop.  Note the Python
truthiness tests: `if query:` / `if location:` / `if skills:` skip the
check for an empty string or empty list, not only for `None`. -/
def jobMatch (query location : Option String) (skills : Option (List String))
    (job : Job) : Bool :=
  (match query with
   | none => true
   | some q =>
       if q = "" then true
       else listSub (strLower q).toList (strLower job.title ++ strLower job.description).toList)
  &&
  (match location with
   | none => true
   | some l => if l = "" then true else strLower l == strLower job.location)
  &&
  (match skills with
   | none => true
   | some ks =>
       if ks = [] then true
       else ks.all fun sk => (job.skills.map strLower).contains (strLower sk))

/-- `GET /jobs/` with optional filters. -/
def list_jobs (s : St) (query location : Option String)
    (skills : Option (List String)) : List Job :=
  (dictValues s.jobs).filter (jobMatch query location skills)

/-- `GET /jobs/{job_id}`. -/
def get_job (s : St) (job_id : Nat) : Except HTTPError Job :=
  match dictGet s.jobs job_id with
  | none => .error ⟨404, "Job not found"⟩
  | some job => .ok job

/-- `PUT /jobs/{job_id}`: `updated = job.copy(); updated.update(update.dict())`
overwrites exactly the seven `JobCreate` fields. -/
def update_job (s : St) (job_id : Nat) (update : JobCreate) (current_user : User) :
    Except HTTPError Job × St :=
  match dictGet s.jobs job_id with
  | none => (.error ⟨404, "Job not found"⟩, s)
  | some job =>
      if job.posted_by ≠ current_user.email then
        (.error ⟨403, "Cannot update job not posted by you"⟩, s)
      else
        let updated : Job :=
          { job with
            title := update.title, description := update.description,
            company := update.company, location := update.location,
            skills := update.skills, salary_min := update.salary_min,
            salary_max := update.salary_max }
        (.ok updated, { s with jobs := dictSet s.jobs job_id updated })

/-- `DELETE /jobs/{job_id}`. -/
def delete_job (s : St) (job_id : Nat) (current_user : User) :
    Except HTTPError Unit × St :=
  match dictGet s.jobs job_id with
  | none => (.error ⟨404, "Job not found"⟩, s)
  | some job =>
      if job.posted_by ≠ current_user.email then
        (.error ⟨403, "Cannot delete job not posted by you"⟩, s)
      else
        (.ok (), { s with jobs := dictDel s.jobs job_id })

/-! ### Applications -/

/-- `POST /applications/`. -/
def apply_for_job (s : St) (application : ApplicationBase) (current_user : User)
    (now : Nat) : Except HTTPError Application × St :=
  if current_user.role ≠ "jobseeker" then
    (.error ⟨403, "Only job seekers can apply"⟩, s)
  else if application.seeker_email ≠ current_user.email then
    (.error ⟨403, "You can only apply as yourself"⟩, s)
  else
    match dictGet s.jobs application.job_id with
    | none => (.error ⟨404, "Job not found"⟩, s)
    | some _ =>
        if (dictValues s.applications).any (fun a =>
            a.job_id == application.job_id && a.seeker_email == current_user.email) then
          (.error ⟨400, "Already applied to this job"⟩, s)
        else
          let new_id := s.last_app_id + 1
          let new_app : Application :=
            ⟨new_id, application.job_id, current_user.email,
             application.cover_letter, "pending", now⟩
          (.ok new_app,
           { s with applications := dictSet s.applications new_id new_app,
                    last_app_id := new_id })

/-- `GET /applications/my`. -/
def my_applications (s : St) (current_user : User) :
    Except HTTPError (List Application) :=
  if current_user.role ≠ "jobseeker" then
    .error ⟨403, "Only job seekers can view their applications"⟩
  else
    .ok ((dictValues s.applications).filter fun a =>
      a.seeker_email == current_user.email)

/-- `GET /applications/for-job/{job_id}`. -/
def applications_for_job (s : St) (job_id : Nat) (current_user : User) :
    Except HTTPError (List Application) :=
  match dictGet s.jobs job_id with
  | none => .error ⟨404, "Job not found"⟩
  | some job =>
      if job.posted_by ≠ current_user.email then
        .error ⟨403, "Only the employer who posted the job can review applications"⟩
      else
        .ok ((dictValues s.applications).filter fun a => a.job_id == job_id)

/-- The pydantic pattern `^(reviewed|rejected|accepted)$` on
`ApplicationReview.status`. -/
def validReviewStatus (status : String) : Bool :=
  status == "reviewed" || status == "rejected" || status == "accepted"

/-- `PUT /applications/{app_id}/review`.  The leading test models the
pydantic pattern constraint on the request body (FastAPI rejects an
illegal status with a 422 before the handler body runs). -/
def review_application (s : St) (app_id : Nat) (review_status : String)
    (current_user : User) : Except HTTPError Application × St :=
  if ¬ validReviewStatus review_status then (.error ⟨422, "Validation failed"⟩, s)
  else
    match dictGet s.applications app_id with
    | none => (.error ⟨404, "Application not found"⟩, s)
    | some app_item =>
        match dictGet s.jobs app_item.job_id with
        | none => (.error ⟨403, "Can only review applications for your jobs"⟩, s)
        | some job =>
            if job.posted_by ≠ current_user.email then
              (.error ⟨403, "Can only review applications for your jobs"⟩, s)
            else
              let updated := { app_item with status := review_status }
              (.ok updated,
               { s with applications := dictSet s.applications app_id updated })

/-! ### Dashboards -/

/-- `GET /dashboard/jobseeker`: the `applied_jobs` comprehension
`[jobs[jid] for jid in applied_job_ids if jid in jobs]` is a `filterMap`. -/
def jobseeker_dashboard (s : St) (current_user : User) :
    Except HTTPError SeekerDashboard :=
  if current_user.role ≠ "jobseeker" then .error ⟨403, "Job seekers only"⟩
  else
    let my_apps := (dictValues s.applications).filter fun a =>
      a.seeker_email == current_user.email
    let applied_job_ids := my_apps.map fun a => a.job_id
    let applied_jobs := applied_job_ids.filterMap fun jid => dictGet s.jobs jid
    .ok ⟨⟨current_user.email, current_user.name, "jobseeker"⟩,
         my_apps.length, applied_jobs, my_apps⟩

/-- `GET /dashboard/employer`. -/
def employer_dashboard (s : St) (current_user : User) :
    Except HTTPError EmployerDashboard :=
  if current_user.role ≠ "employer" then .error ⟨403, "Employers only"⟩
  else
    let posted_jobs := (dictValues s.jobs).filter fun j =>
      j.posted_by == current_user.email
    let job_ids := posted_jobs.map fun j => j.id
    let all_apps := (dictValues s.applications).filter fun a =>
      job_ids.contains a.job_id
    .ok ⟨⟨current_user.email, current_user.name, "employer"⟩,
         posted_jobs.length, posted_jobs, all_apps.length, all_apps⟩

/-- `updated = job.copy(); updated.update(update.dict())`: the stored record
with the seven `JobCreate` fields overwritten. -/
def applyJobCreate (j : Job) (p : JobCreate) : Job :=
  ⟨j.id, p.title, p.description, p.company, p.location, p.skills, p.salary_min, p.salary_max, j.posted_by, j.created_at⟩

/-! ### Reachable states

A state is reachable when it arises from the empty tables by a sequence of
successful mutating requests; the actor of every authenticated request is
resolved by `get_current_user`, as the FastAPI dependency does. -/

inductive Reaches : St → St → Prop where
  | refl (s : St) : Reaches s s
  | reg_seeker {s t t' : St} {d : JobSeekerRegister} {r : UserBase} :
      Reaches s t → register_job_seeker t d = (.ok r, t') → Reaches s t'
  | reg_employer {s t t' : St} {d : EmployerRegister} {r : UserBase} :
      Reaches s t → register_employer t d = (.ok r, t') → Reaches s t'
  | post {s t t' : St} {tok : Option TokenPayload} {n1 n2 : Nat} {u : User}
      {jc : JobCreate} {j : Job} :
      Reaches s t → get_current_user t tok n1 = .ok u →
      post_job t jc u n2 = (.ok j, t') → Reaches s t'
  | upd {s t t' : St} {tok : Option TokenPayload} {n1 : Nat} {u : User}
      {jid : Nat} {jc : JobCreate} {j : Job} :
      Reaches s t → get_current_user t tok n1 = .ok u →
      update_job t jid jc u = (.ok j, t') → Reaches s t'
  | del {s t t' : St} {tok : Option TokenPayload} {n1 : Nat} {u : User} {jid : Nat} :
      Reaches s t → get_current_user t tok n1 = .ok u →
      delete_job t jid u = (.ok (), t') → Reaches s t'
  | app {s t t' : St} {tok : Option TokenPayload} {n1 n2 : Nat} {u : User}
      {ab : ApplicationBase} {a : Application} :
      Reaches s t → get_current_user t tok n1 = .ok u →
      apply_for_job t ab u n2 = (.ok a, t') → Reaches s t'
  | rev {s t t' : St} {tok : Option TokenPayload} {n1 : Nat} {u : User}
      {aid : Nat} {st : String} {a : Application} :
      Reaches s t → get_current_user t tok n1 = .ok u →
      review_application t aid st u = (.ok a, t') → Reaches s t'

def Reachable (s : St) : Prop := Reaches initSt s

/-- The data invariants every reachable state satisfies. -/
structure Inv (s : St) : Prop where
  users_key : ∀ e u, dictGet s.users e = some u → u.email = e
  users_role : ∀ e u, dictGet s.users e = some u →
    u.role = "jobseeker" ∨ u.role = "employer"
  jobs_key : ∀ i j, dictGet s.jobs i = some j → j.id = i
  jobs_le : ∀ i j, dictGet s.jobs i = some j → i ≤ s.last_job_id
  jobs_owner : ∀ i j, dictGet s.jobs i = some j →
    ∃ u, dictGet s.users j.posted_by = some u ∧ u.role = "employer"
  apps_key : ∀ i a, dictGet s.applications i = some a → a.id = i
  apps_le : ∀ i a, dictGet s.applications i = some a → i ≤ s.last_app_id
  users_nd : keysNodup s.users
  jobs_nd : keysNodup s.jobs
  apps_nd : keysNodup s.applications

/-! ### Concrete data for the witnesses -/

def cuEw : User := ⟨"e@x", "secret", "E", "employer", some "ACME", none⟩

def cuSw : User := ⟨"s@x", "secret", "S", "jobseeker", none, none⟩

def job1w : Job := ⟨1, "T", "D", "ACME", "L", ["go"], none, none, "e@x", 5⟩

def app1w : Application := ⟨1, 1, "s@x", none, "pending", 6⟩

def stW : St := ⟨[("e@x", cuEw), ("s@x", cuSw)], [(1, job1w)], [], 1, 0⟩

def stW2 : St := ⟨[("e@x", cuEw), ("s@x", cuSw)], [(1, job1w)], [(1, app1w)], 1, 1⟩

/-- A state whose only application points at a job that is gone. -/
def stW3 : St := ⟨[("e@x", cuEw), ("s@x", cuSw)], [], [(1, app1w)], 1, 1⟩

def jcW : JobCreate := ⟨"T2", "D2", "C2", "L2", ["ml"], some 1, some 2⟩

def tokEw : TokenPayload := ⟨some "e@x", some "employer", 100⟩

def tokSw : TokenPayload := ⟨some "s@x", some "jobseeker", 100⟩

def jcPw : JobCreate := ⟨"T", "D", "C", "L", ["go"], none, none⟩

/-- `initSt` after registering the employer `"e@x"`. -/
def st1w : St := ⟨[("e@x", cuEw)], [], [], 0, 0⟩

/-- `st1w` after the employer posts `jcPw` (yielding `job1w`). -/
def stW1j : St := ⟨[("e@x", cuEw)], [(1, job1w)], [], 1, 0⟩

/-- The filter predicate written from the claim's words (C5): `query`
matches iff its lowercase form occurs in the concatenation of title and
description (no separator, case-insensitive); `location` matches iff it
equals the stored location case-insensitively; `skills` matches iff every
requested skill case-insensitively equals some stored skill; an absent
filter always matches. -/
def claimMatches (query location : Option String) (skills : Option (List String))
    (job : Job) : Bool :=
  (match query with
   | none => true
   | some q => listSub (strLower q).toList (strLower job.title ++ strLower job.description).toList)
  &&
  (match location with
   | none => true
   | some l => strLower l == strLower job.location)
  &&
  (match skills with
   | none => true
   | some ks => ks.all fun sk => (job.skills.map strLower).contains (strLower sk))

/-- An empty-string filter value is falsy in Python, hence treated by the
code as not provided. -/
def truthyStr : Option String → Option String
  | none => none
  | some l => if l = "" then none else some l

/-! ### Lemmas about the dictionary operations -/

theorem dictGet_eq_none {α β : Type} [DecidableEq α] {d : List (α × β)} {k : α} :
    dictGet d k = none ↔ k ∉ d.map Prod.fst := by
  induction d with
  | nil => simp [dictGet]
  | cons p rest ih =>
    obtain ⟨k', v'⟩ := p
    by_cases h : k' = k
    · subst h; simp [dictGet]
    · simp [dictGet, h, ih, Ne.symm h]

theorem dictGet_of_mem {α β : Type} [DecidableEq α] {d : List (α × β)} {k : α} {v : β}
    (hnd : keysNodup d) (h : (k, v) ∈ d) : dictGet d k = some v := by
  induction d with
  | nil => cases h
  | cons p rest ih =>
    obtain ⟨k', v'⟩ := p
    rw [keysNodup, List.map_cons, List.nodup_cons] at hnd
    rcases List.mem_cons.mp h with h1 | h1
    · cases h1; simp [dictGet]
    · by_cases hk : k' = k
      · subst hk
        exact absurd (List.mem_map_of_mem Prod.fst h1) hnd.1
      · simp [dictGet, hk, ih hnd.2 h1]

theorem dictGet_set_self {α β : Type} [DecidableEq α] (d : List (α × β)) (k : α) (v : β) :
    dictGet (dictSet d k v) k = some v := by
  induction d with
  | nil => simp [dictSet, dictGet]
  | cons p rest ih =>
    obtain ⟨k', v'⟩ := p
    by_cases h : k' = k <;> simp [dictSet, dictGet, h, ih]

theorem dictGet_set_other {α β : Type} [DecidableEq α] (d : List (α × β)) {k k' : α} (v : β)
    (h : k' ≠ k) : dictGet (dictSet d k v) k' = dictGet d k' := by
  induction d with
  | nil => simp [dictSet, dictGet, Ne.symm h]
  | cons p rest ih =>
    obtain ⟨k₀, v₀⟩ := p
    by_cases h0 : k₀ = k
    · subst h0; simp [dictSet, dictGet, Ne.symm h]
    · simp [dictSet, dictGet, h0, ih]

theorem keys_dictSet_sub {α β : Type} [DecidableEq α] (d : List (α × β)) (k : α) (v : β) :
    ∀ a ∈ (dictSet d k v).map Prod.fst, a ∈ d.map Prod.fst ∨ a = k := by
  induction d with
  | nil => simp [dictSet]
  | cons p rest ih =>
    obtain ⟨k₀, v₀⟩ := p
    by_cases h0 : k₀ = k
    · subst h0
      intro a ha
      have hset : dictSet ((k₀, v₀) :: rest) k₀ v = (k₀, v) :: rest := by simp [dictSet]
      rw [hset, List.map_cons, List.mem_cons] at ha
      rcases ha with ha | ha
      · exact Or.inr ha
      · exact Or.inl (List.mem_cons_of_mem _ ha)
    · intro a ha
      simp only [dictSet, if_neg h0, List.map_cons, List.mem_cons] at ha
      rcases ha with ha | ha
      · exact Or.inl (by simp [ha])
      · rcases ih a ha with hb | hb
        · exact Or.inl (by simp [hb])
        · exact Or.inr hb

theorem keysNodup_set {α β : Type} [DecidableEq α] {d : List (α × β)} (k : α) (v : β)
    (hnd : keysNodup d) : keysNodup (dictSet d k v) := by
  induction d with
  | nil => simp [dictSet, keysNodup]
  | cons p rest ih =>
    obtain ⟨k₀, v₀⟩ := p
    rw [keysNodup, List.map_cons, List.nodup_cons] at hnd
    by_cases h0 : k₀ = k
    · subst h0
      have hset : dictSet ((k₀, v₀) :: rest) k₀ v = (k₀, v) :: rest := by
        simp [dictSet]
      rw [hset, keysNodup, List.map_cons, List.nodup_cons]
      exact hnd
    · rw [keysNodup]
      simp only [dictSet, if_neg h0, List.map_cons, List.nodup_cons]
      constructor
      · intro hmem
        rcases keys_dictSet_sub rest k v k₀ hmem with h | h
        · exact hnd.1 h
        · exact h0 h
      · exact ih hnd.2

theorem dictDel_sublist {α β : Type} [DecidableEq α] (d : List (α × β)) (k : α) :
    (dictDel d k).Sublist d := by
  induction d with
  | nil => simp [dictDel]
  | cons p rest ih =>
    obtain ⟨k₀, v₀⟩ := p
    by_cases h0 : k₀ = k
    · simp [dictDel, h0]
    · simpa [dictDel, h0] using ih.cons₂ (k₀, v₀)

theorem keysNodup_del {α β : Type} [DecidableEq α] {d : List (α × β)} (k : α)
    (hnd : keysNodup d) : keysNodup (dictDel d k) :=
  List.Nodup.sublist ((dictDel_sublist d k).map Prod.fst) hnd

theorem dictGet_del_other {α β : Type} [DecidableEq α] (d : List (α × β)) {k k' : α}
    (h : k' ≠ k) : dictGet (dictDel d k) k' = dictGet d k' := by
  induction d with
  | nil => simp [dictDel]
  | cons p rest ih =>
    obtain ⟨k₀, v₀⟩ := p
    by_cases h0 : k₀ = k
    · subst h0; simp [dictDel, dictGet, Ne.symm h]
    · simp [dictDel, dictGet, h0, ih]

theorem dictGet_del_self {α β : Type} [DecidableEq α] {d : List (α × β)} (k : α)
    (hnd : keysNodup d) : dictGet (dictDel d k) k = none := by
  induction d with
  | nil => simp [dictDel, dictGet]
  | cons p rest ih =>
    obtain ⟨k₀, v₀⟩ := p
    rw [keysNodup, List.map_cons, List.nodup_cons] at hnd
    by_cases h0 : k₀ = k
    · subst h0
      simpa [dictDel] using dictGet_eq_none.mpr hnd.1
    · simp [dictDel, dictGet, h0, ih hnd.2]

theorem dictGet_del_some {α β : Type} [DecidableEq α] {d : List (α × β)} {k k' : α} {v : β}
    (hnd : keysNodup d) (h : dictGet (dictDel d k) k' = some v) : dictGet d k' = some v := by
  by_cases hk : k' = k
  · rw [hk, dictGet_del_self k hnd] at h; cases h
  · rwa [dictGet_del_other d hk] at h

/-! ### Success characterizations of the handlers -/

theorem get_current_user_ok {s : St} {tok : Option TokenPayload} {n : Nat} {u : User}
    (h : get_current_user s tok n = .ok u) :
    ∃ p e r, tok = some p ∧ p.email = some e ∧ p.role = some r ∧ n < p.exp ∧
      dictGet s.users e = some u ∧ u.role = r := by
  unfold get_current_user at h
  split at h
  · cases h
  next p =>
    split at h
    · cases h
    next hexp =>
      split at h
      next e r he hr =>
        split at h
        · split at h
          · cases h
          next u0 hget =>
            split at h
            next hrole =>
              cases h
              exact ⟨p, e, r, rfl, he, hr, by omega, hget, hrole⟩
            · cases h
        · cases h
      · cases h

theorem register_job_seeker_ok {s t : St} {d : JobSeekerRegister} {r : UserBase}
    (h : register_job_seeker s d = (.ok r, t)) :
    6 ≤ d.password.length ∧ dictGet s.users d.email = none ∧
    r = ⟨d.email, d.name, "jobseeker"⟩ ∧
    t = { s with users := dictSet s.users d.email ⟨d.email, d.password, d.name, "jobseeker", none, d.resume⟩ } := by
  unfold register_job_seeker at h
  split at h
  · cases h
  next hlen =>
    split at h
    · cases h
    next hdup =>
      simp only [Prod.mk.injEq, Except.ok.injEq] at h
      exact ⟨by omega, Option.not_isSome_iff_eq_none.mp hdup, h.1.symm, h.2.symm⟩

theorem register_employer_ok {s t : St} {d : EmployerRegister} {r : UserBase}
    (h : register_employer s d = (.ok r, t)) :
    6 ≤ d.password.length ∧ dictGet s.users d.email = none ∧
    r = ⟨d.email, d.name, "employer"⟩ ∧
    t = { s with users := dictSet s.users d.email ⟨d.email, d.password, d.name, "employer", some d.company_name, none⟩ } := by
  unfold register_employer at h
  split at h
  · cases h
  next hlen =>
    split at h
    · cases h
    next hdup =>
      simp only [Prod.mk.injEq, Except.ok.injEq] at h
      exact ⟨by omega, Option.not_isSome_iff_eq_none.mp hdup, h.1.symm, h.2.symm⟩

theorem post_job_ok {s t : St} {jc : JobCreate} {u : User} {n : Nat} {j : Job}
    (h : post_job s jc u n = (.ok j, t)) :
    u.role = "employer" ∧
    j = ⟨s.last_job_id + 1, jc.title, jc.description, u.company_name.getD jc.company,
         jc.location, jc.skills, jc.salary_min, jc.salary_max, u.email, n⟩ ∧
    t = { s with jobs := dictSet s.jobs (s.last_job_id + 1) j,
                 last_job_id := s.last_job_id + 1 } := by
  unfold post_job at h
  split at h
  · cases h
  next hrole =>
    simp only [Prod.mk.injEq, Except.ok.injEq] at h
    refine ⟨not_ne_iff.mp hrole, h.1.symm, ?_⟩
    rw [← h.2, h.1]

theorem update_job_ok {s t : St} {jid : Nat} {jc : JobCreate} {u : User} {j : Job}
    (h : update_job s jid jc u = (.ok j, t)) :
    ∃ job, dictGet s.jobs jid = some job ∧ job.posted_by = u.email ∧
      j = { job with
            title := jc.title, description := jc.description,
            company := jc.company, location := jc.location,
            skills := jc.skills, salary_min := jc.salary_min,
            salary_max := jc.salary_max } ∧
      t = { s with jobs := dictSet s.jobs jid j } := by
  unfold update_job at h
  split at h
  · cases h
  next job hget =>
    split at h
    · cases h
    next hown =>
      simp only [Prod.mk.injEq, Except.ok.injEq] at h
      refine ⟨job, hget, not_ne_iff.mp hown, h.1.symm, ?_⟩
      rw [← h.2, h.1]

theorem delete_job_ok {s t : St} {jid : Nat} {u : User} {r : Unit}
    (h : delete_job s jid u = (.ok r, t)) :
    ∃ job, dictGet s.jobs jid = some job ∧ job.posted_by = u.email ∧
      t = { s with jobs := dictDel s.jobs jid } := by
  unfold delete_job at h
  split at h
  · cases h
  next job hget =>
    split at h
    · cases h
    next hown =>
      simp only [Prod.mk.injEq, Except.ok.injEq] at h
      exact ⟨job, hget, not_ne_iff.mp hown, h.2.symm⟩

theorem apply_for_job_ok {s t : St} {ab : ApplicationBase} {u : User} {n : Nat}
    {a : Application} (h : apply_for_job s ab u n = (.ok a, t)) :
    u.role = "jobseeker" ∧ ab.seeker_email = u.email ∧
    (∃ job, dictGet s.jobs ab.job_id = some job) ∧
    ((dictValues s.applications).any fun a0 =>
        a0.job_id == ab.job_id && a0.seeker_email == u.email) = false ∧
    a = ⟨s.last_app_id + 1, ab.job_id, u.email, ab.cover_letter, "pending", n⟩ ∧
    t = { s with applications := dictSet s.applications (s.last_app_id + 1) a,
                 last_app_id := s.last_app_id + 1 } := by
  unfold apply_for_job at h
  split at h
  · cases h
  next hrole =>
    split at h
    · cases h
    next hemail =>
      split at h
      · cases h
      next job hget =>
        split at h
        · cases h
        next hdup =>
          simp only [Prod.mk.injEq, Except.ok.injEq] at h
          refine ⟨not_ne_iff.mp hrole, not_ne_iff.mp hemail, ⟨job, hget⟩,
            Bool.eq_false_iff.mpr hdup, h.1.symm, ?_⟩
          rw [← h.2, h.1]

theorem review_application_ok {s t : St} {aid : Nat} {st : String} {u : User}
    {a : Application} (h : review_application s aid st u = (.ok a, t)) :
    validReviewStatus st = true ∧
    ∃ a0 job, dictGet s.applications aid = some a0 ∧
      dictGet s.jobs a0.job_id = some job ∧ job.posted_by = u.email ∧
      a = { a0 with status := st } ∧
      t = { s with applications := dictSet s.applications aid a } := by
  unfold review_application at h
  split at h
  · cases h
  next hvalid =>
    split at h
    · cases h
    next a0 hget =>
      split at h
      · cases h
      next job hjob =>
        split at h
        · cases h
        next hown =>
          simp only [Prod.mk.injEq, Except.ok.injEq] at h
          refine ⟨Bool.not_not_eq.mp (by simpa using hvalid), a0, job, hget, hjob,
            not_ne_iff.mp hown, h.1.symm, ?_⟩
          rw [← h.2, h.1]

theorem inv_init : Inv initSt := by
  constructor <;> simp [initSt, dictGet, keysNodup]

theorem inv_reg_seeker {s t : St} {d : JobSeekerRegister} {r : UserBase}
    (hinv : Inv s) (h : register_job_seeker s d = (.ok r, t)) : Inv t := by
  obtain ⟨-, hfresh, -, ht⟩ := register_job_seeker_ok h
  subst ht
  refine ⟨?_, ?_, hinv.jobs_key, hinv.jobs_le, ?_, hinv.apps_key, hinv.apps_le,
    keysNodup_set _ _ hinv.users_nd, hinv.jobs_nd, hinv.apps_nd⟩
  · intro e u hget
    by_cases he : e = d.email
    · subst he; rw [dictGet_set_self] at hget; cases hget; rfl
    · rw [dictGet_set_other _ _ he] at hget; exact hinv.users_key e u hget
  · intro e u hget
    by_cases he : e = d.email
    · subst he; rw [dictGet_set_self] at hget; cases hget; exact Or.inl rfl
    · rw [dictGet_set_other _ _ he] at hget; exact hinv.users_role e u hget
  · intro i j hget
    obtain ⟨w, hw, hwrole⟩ := hinv.jobs_owner i j hget
    by_cases he : j.posted_by = d.email
    · rw [he, hfresh] at hw; cases hw
    · exact ⟨w, by rw [dictGet_set_other _ _ he]; exact hw, hwrole⟩

theorem inv_reg_employer {s t : St} {d : EmployerRegister} {r : UserBase}
    (hinv : Inv s) (h : register_employer s d = (.ok r, t)) : Inv t := by
  obtain ⟨-, hfresh, -, ht⟩ := register_employer_ok h
  subst ht
  refine ⟨?_, ?_, hinv.jobs_key, hinv.jobs_le, ?_, hinv.apps_key, hinv.apps_le,
    keysNodup_set _ _ hinv.users_nd, hinv.jobs_nd, hinv.apps_nd⟩
  · intro e u hget
    by_cases he : e = d.email
    · subst he; rw [dictGet_set_self] at hget; cases hget; rfl
    · rw [dictGet_set_other _ _ he] at hget; exact hinv.users_key e u hget
  · intro e u hget
    by_cases he : e = d.email
    · subst he; rw [dictGet_set_self] at hget; cases hget; exact Or.inr rfl
    · rw [dictGet_set_other _ _ he] at hget; exact hinv.users_role e u hget
  · intro i j hget
    obtain ⟨w, hw, hwrole⟩ := hinv.jobs_owner i j hget
    by_cases he : j.posted_by = d.email
    · rw [he, hfresh] at hw; cases hw
    · exact ⟨w, by rw [dictGet_set_other _ _ he]; exact hw, hwrole⟩

theorem inv_post {s t : St} {tok : Option TokenPayload} {n1 n2 : Nat} {u : User}
    {jc : JobCreate} {j : Job} (hinv : Inv s)
    (hcu : get_current_user s tok n1 = .ok u)
    (h : post_job s jc u n2 = (.ok j, t)) : Inv t := by
  obtain ⟨hrole, hj, ht⟩ := post_job_ok h
  obtain ⟨p, e, r, -, -, -, -, hue, -⟩ := get_current_user_ok hcu
  have huser : dictGet s.users u.email = some u := by
    rw [hinv.users_key e u hue]; exact hue
  subst ht
  refine ⟨hinv.users_key, hinv.users_role, ?_, ?_, ?_, hinv.apps_key, hinv.apps_le,
    hinv.users_nd, keysNodup_set _ _ hinv.jobs_nd, hinv.apps_nd⟩
  · intro i j0 hget
    by_cases hi : i = s.last_job_id + 1
    · subst hi; rw [dictGet_set_self] at hget; cases hget; rw [hj]
    · rw [dictGet_set_other _ _ hi] at hget; exact hinv.jobs_key i j0 hget
  · intro i j0 hget
    by_cases hi : i = s.last_job_id + 1
    · subst hi; exact le_rfl
    · rw [dictGet_set_other _ _ hi] at hget
      exact Nat.le_succ_of_le (hinv.jobs_le i j0 hget)
  · intro i j0 hget
    by_cases hi : i = s.last_job_id + 1
    · subst hi; rw [dictGet_set_self] at hget; cases hget
      rw [hj]
      exact ⟨u, huser, hrole⟩
    · rw [dictGet_set_other _ _ hi] at hget
      exact hinv.jobs_owner i j0 hget

theorem inv_upd {s t : St} {jid : Nat} {jc : JobCreate} {u : User} {j : Job}
    (hinv : Inv s) (h : update_job s jid jc u = (.ok j, t)) : Inv t := by
  obtain ⟨job, hget0, -, hj, ht⟩ := update_job_ok h
  subst ht
  refine ⟨hinv.users_key, hinv.users_role, ?_, ?_, ?_, hinv.apps_key, hinv.apps_le,
    hinv.users_nd, keysNodup_set _ _ hinv.jobs_nd, hinv.apps_nd⟩
  · intro i j0 hget
    by_cases hi : i = jid
    · subst hi; rw [dictGet_set_self] at hget; cases hget
      rw [hj]
      exact hinv.jobs_key i job hget0
    · rw [dictGet_set_other _ _ hi] at hget; exact hinv.jobs_key i j0 hget
  · intro i j0 hget
    by_cases hi : i = jid
    · subst hi; exact hinv.jobs_le i job hget0
    · rw [dictGet_set_other _ _ hi] at hget; exact hinv.jobs_le i j0 hget
  · intro i j0 hget
    by_cases hi : i = jid
    · subst hi; rw [dictGet_set_self] at hget; cases hget
      rw [hj]
      exact hinv.jobs_owner i job hget0
    · rw [dictGet_set_other _ _ hi] at hget; exact hinv.jobs_owner i j0 hget

theorem inv_del {s t : St} {jid : Nat} {u : User}
    (hinv : Inv s) (h : delete_job s jid u = (.ok (), t)) : Inv t := by
  obtain ⟨job, -, -, ht⟩ := delete_job_ok h
  subst ht
  exact ⟨hinv.users_key, hinv.users_role,
    fun i j0 hget => hinv.jobs_key i j0 (dictGet_del_some hinv.jobs_nd hget),
    fun i j0 hget => hinv.jobs_le i j0 (dictGet_del_some hinv.jobs_nd hget),
    fun i j0 hget => hinv.jobs_owner i j0 (dictGet_del_some hinv.jobs_nd hget),
    hinv.apps_key, hinv.apps_le,
    hinv.users_nd, keysNodup_del _ hinv.jobs_nd, hinv.apps_nd⟩

theorem inv_app {s t : St} {ab : ApplicationBase} {u : User} {n : Nat} {a : Application}
    (hinv : Inv s) (h : apply_for_job s ab u n = (.ok a, t)) : Inv t := by
  obtain ⟨-, -, -, -, ha, ht⟩ := apply_for_job_ok h
  subst ht
  refine ⟨hinv.users_key, hinv.users_role, hinv.jobs_key, hinv.jobs_le, hinv.jobs_owner,
    ?_, ?_, hinv.users_nd, hinv.jobs_nd, keysNodup_set _ _ hinv.apps_nd⟩
  · intro i a0 hget
    by_cases hi : i = s.last_app_id + 1
    · subst hi; rw [dictGet_set_self] at hget; cases hget; rw [ha]
    · rw [dictGet_set_other _ _ hi] at hget; exact hinv.apps_key i a0 hget
  · intro i a0 hget
    by_cases hi : i = s.last_app_id + 1
    · subst hi; exact le_rfl
    · rw [dictGet_set_other _ _ hi] at hget
      exact Nat.le_succ_of_le (hinv.apps_le i a0 hget)

theorem inv_rev {s t : St} {aid : Nat} {st : String} {u : User} {a : Application}
    (hinv : Inv s) (h : review_application s aid st u = (.ok a, t)) : Inv t := by
  obtain ⟨-, a0, job, hget0, -, -, ha, ht⟩ := review_application_ok h
  subst ht
  refine ⟨hinv.users_key, hinv.users_role, hinv.jobs_key, hinv.jobs_le, hinv.jobs_owner,
    ?_, ?_, hinv.users_nd, hinv.jobs_nd, keysNodup_set _ _ hinv.apps_nd⟩
  · intro i a1 hget
    by_cases hi : i = aid
    · subst hi; rw [dictGet_set_self] at hget; cases hget
      rw [ha]
      exact hinv.apps_key i a0 hget0
    · rw [dictGet_set_other _ _ hi] at hget; exact hinv.apps_key i a1 hget
  · intro i a1 hget
    by_cases hi : i = aid
    · subst hi; exact hinv.apps_le i a0 hget0
    · rw [dictGet_set_other _ _ hi] at hget; exact hinv.apps_le i a1 hget

theorem reaches_inv {s t : St} (h : Reaches s t) (hinv : Inv s) : Inv t := by
  induction h with
  | refl => exact hinv
  | reg_seeker _ hs ih => exact inv_reg_seeker ih hs
  | reg_employer _ hs ih => exact inv_reg_employer ih hs
  | post _ hcu hs ih => exact inv_post ih hcu hs
  | upd _ _ hs ih => exact inv_upd ih hs
  | del _ _ hs ih => exact inv_del ih hs
  | app _ _ hs ih => exact inv_app ih hs
  | rev _ _ hs ih => exact inv_rev ih hs

theorem reachable_inv {s : St} (h : Reachable s) : Inv s :=
  reaches_inv h inv_init

theorem reaches_counters_mono {s t : St} (h : Reaches s t) :
    s.last_job_id ≤ t.last_job_id ∧ s.last_app_id ≤ t.last_app_id := by
  induction h with
  | refl => exact ⟨le_rfl, le_rfl⟩
  | reg_seeker _ hs ih =>
    obtain ⟨-, -, -, ht⟩ := register_job_seeker_ok hs
    subst ht; exact ih
  | reg_employer _ hs ih =>
    obtain ⟨-, -, -, ht⟩ := register_employer_ok hs
    subst ht; exact ih
  | post _ _ hs ih =>
    obtain ⟨-, -, ht⟩ := post_job_ok hs
    subst ht
    exact ⟨Nat.le_succ_of_le ih.1, ih.2⟩
  | upd _ _ hs ih =>
    obtain ⟨job, -, -, -, ht⟩ := update_job_ok hs
    subst ht; exact ih
  | del _ _ hs ih =>
    obtain ⟨job, -, -, ht⟩ := delete_job_ok hs
    subst ht; exact ih
  | app _ _ hs ih =>
    obtain ⟨-, -, -, -, -, ht⟩ := apply_for_job_ok hs
    subst ht
    exact ⟨ih.1, Nat.le_succ_of_le ih.2⟩
  | rev _ _ hs ih =>
    obtain ⟨-, a0, job, -, -, -, -, ht⟩ := review_application_ok hs
    subst ht; exact ih

/-! ### Claim C1 -/

/-- **C1.** Every `apply_for_job` call fails 403 Forbidden if the actor's role
is not `jobseeker`; otherwise fails 403 Forbidden if the payload's declared
`seeker_email` differs from the actor's email; otherwise fails 404 NotFound if
no job with the given `job_id` exists; otherwise fails 400
DuplicateApplication if some stored application already carries the same
`(job_id, seeker_email)` pair; otherwise it inserts and returns a new
application with status `pending`, `seeker_email` equal to the actor's email
and the fresh monotonic id `last_app_id + 1` — and the checks apply in
exactly this precedence order. -/
theorem apply_for_job_order_spec (s : St) (ab : ApplicationBase) (cu : User) (now : Nat) :
    (cu.role ≠ "jobseeker" →
      apply_for_job s ab cu now = (.error ⟨403, "Only job seekers can apply"⟩, s)) ∧
    (cu.role = "jobseeker" → ab.seeker_email ≠ cu.email →
      apply_for_job s ab cu now = (.error ⟨403, "You can only apply as yourself"⟩, s)) ∧
    (cu.role = "jobseeker" → ab.seeker_email = cu.email →
      dictGet s.jobs ab.job_id = none →
      apply_for_job s ab cu now = (.error ⟨404, "Job not found"⟩, s)) ∧
    (∀ j, cu.role = "jobseeker" → ab.seeker_email = cu.email →
      dictGet s.jobs ab.job_id = some j →
      (∃ a ∈ dictValues s.applications, a.job_id = ab.job_id ∧ a.seeker_email = cu.email) →
      apply_for_job s ab cu now = (.error ⟨400, "Already applied to this job"⟩, s)) ∧
    (∀ j, cu.role = "jobseeker" → ab.seeker_email = cu.email →
      dictGet s.jobs ab.job_id = some j →
      (∀ a ∈ dictValues s.applications, ¬(a.job_id = ab.job_id ∧ a.seeker_email = cu.email)) →
      apply_for_job s ab cu now =
        (.ok (⟨s.last_app_id + 1, ab.job_id, cu.email, ab.cover_letter, "pending", now⟩ : Application),
         { s with applications := dictSet s.applications (s.last_app_id + 1) ⟨s.last_app_id + 1, ab.job_id, cu.email, ab.cover_letter, "pending", now⟩, last_app_id := s.last_app_id + 1 })) := by
  refine ⟨?_, ?_, ?_, ?_, ?_⟩
  · intro h; simp [apply_for_job, h]
  · intro h1 h2; simp [apply_for_job, h1, h2]
  · intro h1 h2 h3; simp [apply_for_job, h1, h2, h3]
  · intro j h1 h2 h3 h4
    have hany : ((dictValues s.applications).any fun a =>
        a.job_id == ab.job_id && a.seeker_email == cu.email) = true := by
      obtain ⟨a, ha, haj, hae⟩ := h4
      exact List.any_eq_true.mpr ⟨a, ha, by simp [haj, hae]⟩
    simp [apply_for_job, h1, h2, h3, hany]
  · intro j h1 h2 h3 h4
    have hany : ((dictValues s.applications).any fun a =>
        a.job_id == ab.job_id && a.seeker_email == cu.email) = false := by
      rw [List.any_eq_false]
      intro a ha
      have h5 := h4 a ha
      simp only [Bool.and_eq_true, beq_iff_eq]
      exact fun hc => h5 hc
    simp [apply_for_job, h1, h2, h3, hany]

/-- Witness for C1 at concrete inputs: each branch of the precedence order
is exercised. -/
theorem apply_for_job_order_spec_witness :
    apply_for_job stW ⟨1, "s@x", none⟩ cuEw 7 = (.error ⟨403, "Only job seekers can apply"⟩, stW) ∧
    apply_for_job stW ⟨1, "x@x", none⟩ cuSw 7 = (.error ⟨403, "You can only apply as yourself"⟩, stW) ∧
    apply_for_job stW ⟨2, "s@x", none⟩ cuSw 7 = (.error ⟨404, "Job not found"⟩, stW) ∧
    apply_for_job stW2 ⟨1, "s@x", none⟩ cuSw 7 = (.error ⟨400, "Already applied to this job"⟩, stW2) ∧
    apply_for_job stW ⟨1, "s@x", none⟩ cuSw 7 =
      (.ok (⟨1, 1, "s@x", none, "pending", 7⟩ : Application),
       { stW with applications := dictSet stW.applications 1 ⟨1, 1, "s@x", none, "pending", 7⟩, last_app_id := 1 }) :=
  ⟨(apply_for_job_order_spec stW ⟨1, "s@x", none⟩ cuEw 7).1 (by decide),
   (apply_for_job_order_spec stW ⟨1, "x@x", none⟩ cuSw 7).2.1 rfl (by decide),
   (apply_for_job_order_spec stW ⟨2, "s@x", none⟩ cuSw 7).2.2.1 rfl rfl (by decide),
   (apply_for_job_order_spec stW2 ⟨1, "s@x", none⟩ cuSw 7).2.2.2.1 job1w rfl rfl (by decide)
     ⟨app1w, by decide, by decide⟩,
   (apply_for_job_order_spec stW ⟨1, "s@x", none⟩ cuSw 7).2.2.2.2 job1w rfl rfl (by decide)
     (by decide)⟩

/-! ### Claim C3 -/

/-- **C3.** `review_application` fails 404 NotFound if the application is
absent; otherwise fails 403 Forbidden both when the referenced job is gone
and when the job's `posted_by` differs from the actor (the same error in both
cases); for a status in `{reviewed, rejected, accepted}` (`pending` is a
validation error) it unconditionally overwrites the stored status, whatever
the previous value was. -/
theorem review_application_spec (s : St) (aid : Nat) (st : String) (cu : User) :
    (validReviewStatus st = true ↔ st = "reviewed" ∨ st = "rejected" ∨ st = "accepted") ∧
    review_application s aid "pending" cu = (.error ⟨422, "Validation failed"⟩, s) ∧
    (validReviewStatus st = true → dictGet s.applications aid = none →
      review_application s aid st cu = (.error ⟨404, "Application not found"⟩, s)) ∧
    (∀ a, validReviewStatus st = true → dictGet s.applications aid = some a →
      dictGet s.jobs a.job_id = none →
      review_application s aid st cu = (.error ⟨403, "Can only review applications for your jobs"⟩, s)) ∧
    (∀ a j, validReviewStatus st = true → dictGet s.applications aid = some a →
      dictGet s.jobs a.job_id = some j → j.posted_by ≠ cu.email →
      review_application s aid st cu = (.error ⟨403, "Can only review applications for your jobs"⟩, s)) ∧
    (∀ a j, validReviewStatus st = true → dictGet s.applications aid = some a →
      dictGet s.jobs a.job_id = some j → j.posted_by = cu.email →
      review_application s aid st cu =
        (.ok { a with status := st },
         { s with applications := dictSet s.applications aid { a with status := st } })) := by
  refine ⟨?_, ?_, ?_, ?_, ?_, ?_⟩
  · simp [validReviewStatus, or_assoc]
  · simp [review_application, validReviewStatus]
  · intro h1 h2; simp [review_application, h1, h2]
  · intro a h1 h2 h3; simp [review_application, h1, h2, h3]
  · intro a j h1 h2 h3 h4; simp [review_application, h1, h2, h3, h4]
  · intro a j h1 h2 h3 h4; simp [review_application, h1, h2, h3, h4]

/-- Witness for C3: every branch at concrete inputs, including an overwrite
of a non-`pending` status. -/
theorem review_application_spec_witness :
    (validReviewStatus "accepted" = true ↔ ("accepted" = "reviewed" ∨ "accepted" = "rejected" ∨ "accepted" = "accepted")) ∧
    review_application stW2 1 "pending" cuEw = (.error ⟨422, "Validation failed"⟩, stW2) ∧
    review_application stW2 5 "accepted" cuEw = (.error ⟨404, "Application not found"⟩, stW2) ∧
    review_application stW3 1 "accepted" cuEw = (.error ⟨403, "Can only review applications for your jobs"⟩, stW3) ∧
    review_application stW2 1 "accepted" cuSw = (.error ⟨403, "Can only review applications for your jobs"⟩, stW2) ∧
    review_application stW2 1 "accepted" cuEw =
      (.ok { app1w with status := "accepted" },
       { stW2 with applications := dictSet stW2.applications 1 { app1w with status := "accepted" } }) :=
  ⟨(review_application_spec stW2 1 "accepted" cuEw).1,
   (review_application_spec stW2 1 "accepted" cuEw).2.1,
   (review_application_spec stW2 5 "accepted" cuEw).2.2.1 (by decide) rfl,
   (review_application_spec stW3 1 "accepted" cuEw).2.2.2.1 app1w (by decide) rfl rfl,
   (review_application_spec stW2 1 "accepted" cuSw).2.2.2.2.1 app1w job1w (by decide) rfl rfl (by decide),
   (review_application_spec stW2 1 "accepted" cuEw).2.2.2.2.2 app1w job1w (by decide) rfl rfl rfl⟩

/-! ### Claim C4 -/

/-- **C4.** `update_job` and `delete_job` fail 404 NotFound when the job does
not exist (regardless of the actor), fail 403 Forbidden when the stored
`posted_by` differs from the actor's email, and succeed exactly when the job
exists and is owned by the actor; the NotFound check precedes the ownership
check. -/
theorem update_delete_ownership (s : St) (jid : Nat) (jc : JobCreate) (cu : User) :
    (dictGet s.jobs jid = none →
      update_job s jid jc cu = (.error ⟨404, "Job not found"⟩, s) ∧
      delete_job s jid cu = (.error ⟨404, "Job not found"⟩, s)) ∧
    (∀ j, dictGet s.jobs jid = some j → j.posted_by ≠ cu.email →
      update_job s jid jc cu = (.error ⟨403, "Cannot update job not posted by you"⟩, s) ∧
      delete_job s jid cu = (.error ⟨403, "Cannot delete job not posted by you"⟩, s)) ∧
    (∀ j, dictGet s.jobs jid = some j → j.posted_by = cu.email →
      (∃ j', (update_job s jid jc cu).1 = .ok j') ∧ (delete_job s jid cu).1 = .ok ()) := by
  refine ⟨?_, ?_, ?_⟩
  · intro h
    exact ⟨by simp [update_job, h], by simp [delete_job, h]⟩
  · intro j h1 h2
    exact ⟨by simp [update_job, h1, h2], by simp [delete_job, h1, h2]⟩
  · intro j h1 h2
    refine ⟨⟨applyJobCreate j jc, ?_⟩, ?_⟩
    · simp [update_job, applyJobCreate, h1, h2]
    · simp [delete_job, h1, h2]

/-- Witness for C4: the three branches at concrete inputs. -/
theorem update_delete_ownership_witness :
    (update_job stW2 5 jcW cuEw = (.error ⟨404, "Job not found"⟩, stW2) ∧
     delete_job stW2 5 cuEw = (.error ⟨404, "Job not found"⟩, stW2)) ∧
    (update_job stW2 1 jcW cuSw = (.error ⟨403, "Cannot update job not posted by you"⟩, stW2) ∧
     delete_job stW2 1 cuSw = (.error ⟨403, "Cannot delete job not posted by you"⟩, stW2)) ∧
    ((∃ j', (update_job stW2 1 jcW cuEw).1 = .ok j') ∧ (delete_job stW2 1 cuEw).1 = .ok ()) :=
  ⟨(update_delete_ownership stW2 5 jcW cuEw).1 rfl,
   (update_delete_ownership stW2 1 jcW cuSw).2.1 job1w rfl (by decide),
   (update_delete_ownership stW2 1 jcW cuEw).2.2 job1w rfl rfl⟩

/-! ### Claim C7 -/

/-- **C7.** A successful `update_job` replaces every `JobCreate` field of the
stored job with the payload value (a full replace), keeps `id`, `posted_by`
and `created_at` unchanged, and leaves every other job, the other tables and
both counters untouched. -/
theorem update_job_frame (s : St) (jid : Nat) (p : JobCreate) (cu : User) (j : Job)
    (hj : dictGet s.jobs jid = some j) (hown : j.posted_by = cu.email) :
    ∃ j' s', update_job s jid p cu = (.ok j', s') ∧
      j'.title = p.title ∧ j'.description = p.description ∧ j'.company = p.company ∧
      j'.location = p.location ∧ j'.skills = p.skills ∧
      j'.salary_min = p.salary_min ∧ j'.salary_max = p.salary_max ∧
      j'.id = j.id ∧ j'.posted_by = j.posted_by ∧ j'.created_at = j.created_at ∧
      dictGet s'.jobs jid = some j' ∧
      (∀ k, k ≠ jid → dictGet s'.jobs k = dictGet s.jobs k) ∧
      s'.users = s.users ∧ s'.applications = s.applications ∧
      s'.last_job_id = s.last_job_id ∧ s'.last_app_id = s.last_app_id := by
  refine ⟨applyJobCreate j p,
    { s with jobs := dictSet s.jobs jid (applyJobCreate j p) },
    ?_, rfl, rfl, rfl, rfl, rfl, rfl, rfl, rfl, rfl, rfl,
    dictGet_set_self _ _ _, fun k hk => dictGet_set_other _ _ hk, rfl, rfl, rfl, rfl⟩
  simp [update_job, applyJobCreate, hj, hown]

/-- Witness for C7 at a concrete job and payload. -/
theorem update_job_frame_witness :
    ∃ j' s', update_job stW2 1 jcW cuEw = (.ok j', s') ∧
      j'.title = jcW.title ∧ j'.description = jcW.description ∧ j'.company = jcW.company ∧
      j'.location = jcW.location ∧ j'.skills = jcW.skills ∧
      j'.salary_min = jcW.salary_min ∧ j'.salary_max = jcW.salary_max ∧
      j'.id = job1w.id ∧ j'.posted_by = job1w.posted_by ∧ j'.created_at = job1w.created_at ∧
      dictGet s'.jobs 1 = some j' ∧
      (∀ k, k ≠ 1 → dictGet s'.jobs k = dictGet stW2.jobs k) ∧
      s'.users = stW2.users ∧ s'.applications = stW2.applications ∧
      s'.last_job_id = stW2.last_job_id ∧ s'.last_app_id = stW2.last_app_id :=
  update_job_frame stW2 1 jcW cuEw job1w rfl rfl

/-! ### Claim C9 -/

theorem register_job_seeker_cases (s : St) (d : JobSeekerRegister) :
    (register_job_seeker s d).2 = s ∨ ∃ v, (register_job_seeker s d).1 = Except.ok v := by
  unfold register_job_seeker
  split
  · exact Or.inl rfl
  split
  · exact Or.inl rfl
  · exact Or.inr ⟨_, rfl⟩

theorem register_employer_cases (s : St) (d : EmployerRegister) :
    (register_employer s d).2 = s ∨ ∃ v, (register_employer s d).1 = Except.ok v := by
  unfold register_employer
  split
  · exact Or.inl rfl
  split
  · exact Or.inl rfl
  · exact Or.inr ⟨_, rfl⟩

theorem post_job_cases (s : St) (jc : JobCreate) (cu : User) (n : Nat) :
    (post_job s jc cu n).2 = s ∨ ∃ v, (post_job s jc cu n).1 = Except.ok v := by
  unfold post_job
  split
  · exact Or.inl rfl
  · exact Or.inr ⟨_, rfl⟩

theorem update_job_cases (s : St) (jid : Nat) (jc : JobCreate) (cu : User) :
    (update_job s jid jc cu).2 = s ∨ ∃ v, (update_job s jid jc cu).1 = Except.ok v := by
  unfold update_job
  split
  · exact Or.inl rfl
  split
  · exact Or.inl rfl
  · exact Or.inr ⟨_, rfl⟩

theorem delete_job_cases (s : St) (jid : Nat) (cu : User) :
    (delete_job s jid cu).2 = s ∨ ∃ v, (delete_job s jid cu).1 = Except.ok v := by
  unfold delete_job
  split
  · exact Or.inl rfl
  split
  · exact Or.inl rfl
  · exact Or.inr ⟨_, rfl⟩

theorem apply_for_job_cases (s : St) (ab : ApplicationBase) (cu : User) (n : Nat) :
    (apply_for_job s ab cu n).2 = s ∨ ∃ v, (apply_for_job s ab cu n).1 = Except.ok v := by
  unfold apply_for_job
  split
  · exact Or.inl rfl
  split
  · exact Or.inl rfl
  split
  · exact Or.inl rfl
  split
  · exact Or.inl rfl
  · exact Or.inr ⟨_, rfl⟩

theorem review_application_cases (s : St) (aid : Nat) (st : String) (cu : User) :
    (review_application s aid st cu).2 = s ∨
    ∃ v, (review_application s aid st cu).1 = Except.ok v := by
  unfold review_application
  split
  · exact Or.inl rfl
  split
  · exact Or.inl rfl
  split
  · exact Or.inl rfl
  split
  · exact Or.inl rfl
  · exact Or.inr ⟨_, rfl⟩

/-- **C9.** Every mutating operation is atomic on error: whenever it returns
an error — of any kind — the resulting tables and counters are exactly the
input state (in the source all mutations, including the counter increments,
happen only after the last check has passed). -/
theorem mutating_ops_atomic_on_error (s : St) (ds : JobSeekerRegister)
    (de : EmployerRegister) (jc : JobCreate) (jid aid : Nat) (ab : ApplicationBase)
    (st : String) (cu : User) (n : Nat) :
    (∀ e, (register_job_seeker s ds).1 = .error e → (register_job_seeker s ds).2 = s) ∧
    (∀ e, (register_employer s de).1 = .error e → (register_employer s de).2 = s) ∧
    (∀ e, (post_job s jc cu n).1 = .error e → (post_job s jc cu n).2 = s) ∧
    (∀ e, (update_job s jid jc cu).1 = .error e → (update_job s jid jc cu).2 = s) ∧
    (∀ e, (delete_job s jid cu).1 = .error e → (delete_job s jid cu).2 = s) ∧
    (∀ e, (apply_for_job s ab cu n).1 = .error e → (apply_for_job s ab cu n).2 = s) ∧
    (∀ e, (review_application s aid st cu).1 = .error e → (review_application s aid st cu).2 = s) :=
  ⟨fun _ h => (register_job_seeker_cases s ds).resolve_right
      (fun hex => by obtain ⟨v, hv⟩ := hex; rw [hv] at h; cases h),
   fun _ h => (register_employer_cases s de).resolve_right
      (fun hex => by obtain ⟨v, hv⟩ := hex; rw [hv] at h; cases h),
   fun _ h => (post_job_cases s jc cu n).resolve_right
      (fun hex => by obtain ⟨v, hv⟩ := hex; rw [hv] at h; cases h),
   fun _ h => (update_job_cases s jid jc cu).resolve_right
      (fun hex => by obtain ⟨v, hv⟩ := hex; rw [hv] at h; cases h),
   fun _ h => (delete_job_cases s jid cu).resolve_right
      (fun hex => by obtain ⟨v, hv⟩ := hex; rw [hv] at h; cases h),
   fun _ h => (apply_for_job_cases s ab cu n).resolve_right
      (fun hex => by obtain ⟨v, hv⟩ := hex; rw [hv] at h; cases h),
   fun _ h => (review_application_cases s aid st cu).resolve_right
      (fun hex => by obtain ⟨v, hv⟩ := hex; rw [hv] at h; cases h)⟩

/-- Witness for C9: one failing call of each operation, all leaving the
concrete state untouched (in particular the failed `apply` does not bump
`last_app_id`). -/
theorem mutating_ops_atomic_on_error_witness :
    (register_job_seeker stW2 ⟨"s@x", "secret", "S", none⟩).2 = stW2 ∧
    (register_employer stW2 ⟨"e@x", "secret", "E", "ACME"⟩).2 = stW2 ∧
    (post_job stW2 jcW cuSw 9).2 = stW2 ∧
    (update_job stW2 1 jcW cuSw).2 = stW2 ∧
    (delete_job stW2 1 cuSw).2 = stW2 ∧
    (apply_for_job stW2 ⟨1, "s@x", none⟩ cuSw 9).2 = stW2 ∧
    (review_application stW2 1 "pending" cuEw).2 = stW2 := by
  obtain ⟨h1, h2, h3, h4, h5, h6, h7⟩ :=
    mutating_ops_atomic_on_error stW2 ⟨"s@x", "secret", "S", none⟩
      ⟨"e@x", "secret", "E", "ACME"⟩ jcW 1 1 ⟨1, "s@x", none⟩ "pending" cuSw 9
  exact ⟨h1 ⟨400, "Email already registered"⟩ rfl,
    h2 ⟨400, "Email already registered"⟩ rfl,
    h3 ⟨403, "Only employers can post jobs"⟩ rfl,
    h4 ⟨403, "Cannot update job not posted by you"⟩ rfl,
    h5 ⟨403, "Cannot delete job not posted by you"⟩ rfl,
    h6 ⟨400, "Already applied to this job"⟩ rfl,
    h7 ⟨422, "Validation failed"⟩ rfl⟩

/-! ### Claim C5 -/

theorem listSub_nil {α : Type} [DecidableEq α] (hay : List α) : listSub [] hay = true := by
  cases hay with
  | nil => rfl
  | cons b bs => simp [listSub, listPre]

/-- **C5 counterexample.** The claim's filter semantics ("location matches
iff it equals the stored location case-insensitively") disagrees with
`list_jobs` on an empty-string `location` filter: `if location:` is false
for `""` in Python, so the code skips the check and returns the job whose
location is `"L"`, while the claimed semantics compares `"" = "l"` and
drops it. -/
theorem list_jobs_filter_semantics_cex :
    list_jobs stW none (some "") none ≠
      (dictValues stW.jobs).filter (claimMatches none (some "") none) := by
  decide

/-- **C5 (amended).** `list_jobs` returns exactly the stored jobs satisfying
all provided filters under the claimed per-filter semantics, once an
empty-string `location` filter is treated as not provided (Python
truthiness); an empty `query` or empty `skills` list is also skipped by the
code, but there the claimed semantics already accepts every job, so only
the `location` reading needs the adjustment. -/
theorem list_jobs_filter_semantics (s : St) (query location : Option String)
    (skills : Option (List String)) :
    list_jobs s query location skills =
      (dictValues s.jobs).filter (claimMatches query (truthyStr location) skills) := by
  unfold list_jobs
  apply List.filter_congr
  intro j _
  show jobMatch query location skills j = claimMatches query (truthyStr location) skills j
  unfold jobMatch claimMatches
  congr 1
  · congr 1
    · cases query with
      | none => rfl
      | some q =>
        by_cases h0 : q = ""
        · subst h0
          have he : (strLower "").data = ([] : List Char) := rfl
          simp [he, listSub_nil]
        · simp [h0]
    · cases location with
      | none => rfl
      | some l =>
        by_cases h0 : l = ""
        · subst h0; simp [truthyStr]
        · simp [truthyStr, h0]
  · cases skills with
    | none => rfl
    | some ks =>
      by_cases h0 : ks = []
      · subst h0; simp
      · simp [h0]

/-! ### Claim C8 -/

/-- **C8.** Deleting a job removes exactly that job and no applications;
afterwards a jobseeker who had applied still sees the application in the
dashboard's `applications` list (and it is counted by `num_applications`),
while `applied_jobs` omits the deleted job — the join keeps only
applications whose `job_id` is still present in the job table. -/
theorem delete_job_dashboard (s : St) (jid : Nat) (cu seeker : User) (j : Job)
    (a : Application)
    (hnd : keysNodup s.jobs)
    (hkey : ∀ i j0, dictGet s.jobs i = some j0 → j0.id = i)
    (hj : dictGet s.jobs jid = some j) (hown : j.posted_by = cu.email)
    (hrole : seeker.role = "jobseeker")
    (ha : a ∈ dictValues s.applications) (hae : a.seeker_email = seeker.email) :
    ∃ s', delete_job s jid cu = (.ok (), s') ∧
      s'.applications = s.applications ∧ s'.users = s.users ∧
      dictGet s'.jobs jid = none ∧
      (∀ k, k ≠ jid → dictGet s'.jobs k = dictGet s.jobs k) ∧
      ∃ d, jobseeker_dashboard s' seeker = .ok d ∧
        a ∈ d.applications ∧
        d.num_applications = d.applications.length ∧
        (∀ jb, jb ∈ d.applied_jobs → jb.id ≠ jid) := by
  refine ⟨{ s with jobs := dictDel s.jobs jid }, ?_, rfl, rfl, dictGet_del_self _ hnd,
    fun k hk => dictGet_del_other _ hk, ?_⟩
  · simp [delete_job, hj, hown]
  · have hdash : jobseeker_dashboard { s with jobs := dictDel s.jobs jid } seeker =
        .ok ⟨⟨seeker.email, seeker.name, "jobseeker"⟩,
          ((dictValues s.applications).filter fun a0 => a0.seeker_email == seeker.email).length,
          (((dictValues s.applications).filter fun a0 => a0.seeker_email == seeker.email).map fun a0 => a0.job_id).filterMap (fun jid0 => dictGet (dictDel s.jobs jid) jid0),
          (dictValues s.applications).filter fun a0 => a0.seeker_email == seeker.email⟩ := by
      simp [jobseeker_dashboard, hrole]
    refine ⟨_, hdash, ?_, rfl, ?_⟩
    · exact List.mem_filter.mpr ⟨ha, by simp [hae]⟩
    · intro jb hjb
      obtain ⟨i, hi_mem, hi⟩ := List.mem_filterMap.mp hjb
      by_cases hik : i = jid
      · rw [hik, dictGet_del_self _ hnd] at hi; cases hi
      · rw [dictGet_del_other _ hik] at hi
        have := hkey i jb hi
        omega

/-- Witness for C8 at a concrete state: after deleting job 1 the seeker's
application survives and the dashboard lists it while `applied_jobs` is
empty. -/
theorem delete_job_dashboard_witness :
    ∃ s', delete_job stW2 1 cuEw = (.ok (), s') ∧
      s'.applications = stW2.applications ∧ s'.users = stW2.users ∧
      dictGet s'.jobs 1 = none ∧
      (∀ k, k ≠ 1 → dictGet s'.jobs k = dictGet stW2.jobs k) ∧
      ∃ d, jobseeker_dashboard s' cuSw = .ok d ∧
        app1w ∈ d.applications ∧
        d.num_applications = d.applications.length ∧
        (∀ jb, jb ∈ d.applied_jobs → jb.id ≠ 1) :=
  delete_job_dashboard stW2 1 cuEw cuSw job1w app1w (by decide)
    (fun i j0 h => by
      simp only [stW2, dictGet] at h
      split at h
      · next h1 => cases h; exact h1
      · cases h)
    rfl rfl rfl (by decide) rfl

/-! ### Claim C10 -/

/-- **C10.** `POST /auth/token` authenticates with role
`scopes[0] if scopes else "jobseeker"`: with no scope (or a first scope
other than `employer`) an employer with correct credentials is rejected 401
rather than issued a token; `POST /auth/login` takes the role from the
request body, so the same employer succeeds there with role `employer`. -/
theorem token_login_default_role (s : St) (email pw : String) (u : User)
    (scopes : List String) (now : Nat)
    (hu : dictGet s.users email = some u) (hrole : u.role = "employer")
    (hpw : u.password = pw) (hscope : scopes.headD "jobseeker" ≠ "employer") :
    login s email pw scopes now = .error ⟨401, "Incorrect email, password, or role"⟩ ∧
    (∀ un pw2 n2, login s un pw2 [] n2 = login_alt s ⟨un, pw2, "jobseeker"⟩ n2) ∧
    login_alt s ⟨email, pw, "employer"⟩ now =
      .ok ⟨some u.email, some u.role, now + ACCESS_TOKEN_EXPIRE_MINUTES⟩ := by
  refine ⟨?_, ?_, ?_⟩
  · cases scopes with
    | nil =>
      have hne : u.role ≠ "jobseeker" := by rw [hrole]; decide
      simp [login, authenticate_user, hu, hne]
    | cons r0 rest =>
      have hr0 : r0 ≠ "employer" := by simpa using hscope
      have hne : u.role ≠ r0 := by
        rw [hrole]
        exact fun hc => hr0 hc.symm
      simp [login, authenticate_user, hu, hne]
  · intro un pw2 n2; rfl
  · simp [login_alt, authenticate_user, hu, hpw, hrole, create_access_token]

/-- Witness for C10: the registered employer `"e@x"` with the right password
is rejected by `/auth/token` without a scope, and accepted by `/auth/login`
with the role in the body. -/
theorem token_login_default_role_witness :
    login stW2 "e@x" "secret" [] 0 = .error ⟨401, "Incorrect email, password, or role"⟩ ∧
    login stW2 "a@b" "pw" [] 3 = login_alt stW2 ⟨"a@b", "pw", "jobseeker"⟩ 3 ∧
    login_alt stW2 ⟨"e@x", "secret", "employer"⟩ 0 =
      .ok ⟨some cuEw.email, some cuEw.role, 0 + ACCESS_TOKEN_EXPIRE_MINUTES⟩ := by
  obtain ⟨h1, h2, h3⟩ :=
    token_login_default_role stW2 "e@x" "secret" cuEw [] 0 rfl rfl rfl (by decide)
  exact ⟨h1, h2 "a@b" "pw" 3, h3⟩

/-! ### Concrete reachable states -/

theorem reachable_stW : Reachable stW := by
  have h1 : Reaches initSt st1w :=
    Reaches.reg_employer (Reaches.refl initSt)
      (show register_employer initSt ⟨"e@x", "secret", "E", "ACME"⟩ = (.ok ⟨"e@x", "E", "employer"⟩, st1w) from rfl)
  have h2 : Reaches initSt stW1j :=
    Reaches.post h1
      (show get_current_user st1w (some tokEw) 0 = .ok cuEw from rfl)
      (show post_job st1w jcPw cuEw 5 = (.ok job1w, stW1j) from rfl)
  exact Reaches.reg_seeker h2
    (show register_job_seeker stW1j ⟨"s@x", "secret", "S", none⟩ = (.ok ⟨"s@x", "S", "jobseeker"⟩, stW) from rfl)

theorem reachable_stW2 : Reachable stW2 :=
  Reaches.app reachable_stW
    (show get_current_user stW (some tokSw) 0 = .ok cuSw from rfl)
    (show apply_for_job stW ⟨1, "s@x", none⟩ cuSw 6 = (.ok app1w, stW2) from rfl)

/-! ### Claim C2 -/

/-- **C2.** In every reachable state, an operation that requires a specific
role rejects with 403 Forbidden any actor resolved from a token whose role
claim differs from the required role: `post_job` requires employer; `apply`,
`my_applications` and the jobseeker dashboard require jobseeker; the
employer dashboard requires employer; and the operations requiring the
posting employer (`update`/`delete`/`applications_for_job` on an existing
job, `review` on an existing application) always fail their ownership
comparison for a non-employer actor, because every stored job's `posted_by`
is a registered employer's email and emails are unique keys. -/
theorem role_gating_of_token {s : St} {p : TokenPayload} {now : Nat} {u : User}
    {r : String}
    (hreach : Reachable s)
    (hcu : get_current_user s (some p) now = .ok u)
    (hrole : p.role = some r) :
    (r ≠ "employer" → ∀ jc n2,
      (post_job s jc u n2).1 = .error ⟨403, "Only employers can post jobs"⟩) ∧
    (r ≠ "jobseeker" → ∀ ab n2,
      (apply_for_job s ab u n2).1 = .error ⟨403, "Only job seekers can apply"⟩) ∧
    (r ≠ "jobseeker" →
      my_applications s u = .error ⟨403, "Only job seekers can view their applications"⟩) ∧
    (r ≠ "jobseeker" →
      jobseeker_dashboard s u = .error ⟨403, "Job seekers only"⟩) ∧
    (r ≠ "employer" →
      employer_dashboard s u = .error ⟨403, "Employers only"⟩) ∧
    (r ≠ "employer" → ∀ jid j jc, dictGet s.jobs jid = some j →
      (update_job s jid jc u).1 = .error ⟨403, "Cannot update job not posted by you"⟩) ∧
    (r ≠ "employer" → ∀ jid j, dictGet s.jobs jid = some j →
      (delete_job s jid u).1 = .error ⟨403, "Cannot delete job not posted by you"⟩) ∧
    (r ≠ "employer" → ∀ jid j, dictGet s.jobs jid = some j →
      applications_for_job s jid u = .error ⟨403, "Only the employer who posted the job can review applications"⟩) ∧
    (r ≠ "employer" → ∀ aid a st, dictGet s.applications aid = some a →
      validReviewStatus st = true →
      (review_application s aid st u).1 = .error ⟨403, "Can only review applications for your jobs"⟩) := by
  obtain ⟨p', e, r', hp', he, hr', hexp, hue, hur⟩ := get_current_user_ok hcu
  cases hp'
  rw [hrole] at hr'
  cases hr'
  have hinv := reachable_inv hreach
  have huser : dictGet s.users u.email = some u := by
    rw [hinv.users_key e u hue]; exact hue
  have howner : r ≠ "employer" →
      ∀ jid j, dictGet s.jobs jid = some j → j.posted_by ≠ u.email := by
    intro hne jid j hget hcontra
    obtain ⟨w, hw, hwrole⟩ := hinv.jobs_owner jid j hget
    rw [hcontra, huser] at hw
    cases hw
    exact hne (by rw [← hur]; exact hwrole)
  refine ⟨?_, ?_, ?_, ?_, ?_, ?_, ?_, ?_, ?_⟩
  · intro hne jc n2; simp [post_job, hur, hne]
  · intro hne ab n2; simp [apply_for_job, hur, hne]
  · intro hne; simp [my_applications, hur, hne]
  · intro hne; simp [jobseeker_dashboard, hur, hne]
  · intro hne; simp [employer_dashboard, hur, hne]
  · intro hne jid j jc hget
    have hpb := howner hne jid j hget
    simp [update_job, hget, hpb]
  · intro hne jid j hget
    have hpb := howner hne jid j hget
    simp [delete_job, hget, hpb]
  · intro hne jid j hget
    have hpb := howner hne jid j hget
    simp [applications_for_job, hget, hpb]
  · intro hne aid a st hget hst
    rcases hjob : dictGet s.jobs a.job_id with _ | j
    · simp [review_application, hst, hget, hjob]
    · have hpb := howner hne a.job_id j hjob
      simp [review_application, hst, hget, hjob, hpb]

/-- Witness for C2 in the reachable state `stW2`, with a jobseeker token for
the employer-gated operations and an employer token for the
jobseeker-gated ones. -/
theorem role_gating_of_token_witness :
    (update_job stW2 1 jcW cuSw).1 = .error ⟨403, "Cannot update job not posted by you"⟩ ∧
    (delete_job stW2 1 cuSw).1 = .error ⟨403, "Cannot delete job not posted by you"⟩ ∧
    applications_for_job stW2 1 cuSw = .error ⟨403, "Only the employer who posted the job can review applications"⟩ ∧
    (review_application stW2 1 "accepted" cuSw).1 = .error ⟨403, "Can only review applications for your jobs"⟩ ∧
    (post_job stW2 jcW cuSw 9).1 = .error ⟨403, "Only employers can post jobs"⟩ ∧
    employer_dashboard stW2 cuSw = .error ⟨403, "Employers only"⟩ ∧
    (apply_for_job stW2 ⟨1, "e@x", none⟩ cuEw 9).1 = .error ⟨403, "Only job seekers can apply"⟩ ∧
    my_applications stW2 cuEw = .error ⟨403, "Only job seekers can view their applications"⟩ ∧
    jobseeker_dashboard stW2 cuEw = .error ⟨403, "Job seekers only"⟩ := by
  obtain ⟨hpost, -, -, -, hedash, hupd, hdel, hforjob, hrev⟩ :=
    role_gating_of_token reachable_stW2
      (show get_current_user stW2 (some tokSw) 0 = .ok cuSw from rfl)
      (show tokSw.role = some "jobseeker" from rfl)
  obtain ⟨-, happly, hmine, hjdash, -, -, -, -, -⟩ :=
    role_gating_of_token reachable_stW2
      (show get_current_user stW2 (some tokEw) 0 = .ok cuEw from rfl)
      (show tokEw.role = some "employer" from rfl)
  exact ⟨hupd (by decide) 1 job1w jcW rfl, hdel (by decide) 1 job1w rfl,
    hforjob (by decide) 1 job1w rfl, hrev (by decide) 1 app1w "accepted" rfl rfl,
    hpost (by decide) jcW 9, hedash (by decide),
    happly (by decide) ⟨1, "e@x", none⟩ 9, hmine (by decide), hjdash (by decide)⟩

/-! ### Claim C6 -/

theorem values_ids_nodup {β : Type} (d : List (Nat × β)) (f : β → Nat)
    (hnd : keysNodup d) (hkey : ∀ i v, dictGet d i = some v → f v = i) :
    ((dictValues d).map f).Nodup := by
  have hmap : (dictValues d).map f = d.map Prod.fst := by
    rw [dictValues, List.map_map]
    apply List.map_congr_left
    intro p hp
    show f p.2 = p.1
    exact hkey p.1 p.2 (dictGet_of_mem hnd (by rw [Prod.mk.eta]; exact hp))
  rw [hmap]
  exact hnd

/-- **C6.** Ids come from a strictly increasing counter: a successful
`post_job` (resp. `apply_for_job`) assigns id `last_job_id + 1`
(resp. `last_app_id + 1`) and bumps the counter to exactly that value; the
counters never decrease along any sequence of successful operations; in
every reachable state all stored job ids (and application ids) are pairwise
distinct, equal to their keys and at most the counter; and an id that was
ever allocated in a state `s` (hence `≤ s.last_job_id`) — even if its job
has since been deleted — is never assigned to a job created in any state
reachable from `s`. -/
theorem id_allocation_monotonic (s t : St) (jc : JobCreate) (ab : ApplicationBase)
    (cu : User) (n : Nat) :
    (Reachable s →
      (∀ i j, dictGet s.jobs i = some j → j.id = i ∧ i ≤ s.last_job_id) ∧
      (∀ i a, dictGet s.applications i = some a → a.id = i ∧ i ≤ s.last_app_id) ∧
      ((dictValues s.jobs).map Job.id).Nodup ∧
      ((dictValues s.applications).map Application.id).Nodup) ∧
    (∀ j, (post_job s jc cu n).1 = .ok j →
      j.id = s.last_job_id + 1 ∧ (post_job s jc cu n).2.last_job_id = s.last_job_id + 1) ∧
    (∀ a, (apply_for_job s ab cu n).1 = .ok a →
      a.id = s.last_app_id + 1 ∧ (apply_for_job s ab cu n).2.last_app_id = s.last_app_id + 1) ∧
    (Reaches s t → s.last_job_id ≤ t.last_job_id ∧ s.last_app_id ≤ t.last_app_id) ∧
    (∀ i, i ≤ s.last_job_id → Reaches s t →
      ∀ j, (post_job t jc cu n).1 = .ok j → i < j.id) := by
  have hpostc : ∀ (s0 : St) (j : Job), (post_job s0 jc cu n).1 = .ok j →
      j.id = s0.last_job_id + 1 ∧ (post_job s0 jc cu n).2.last_job_id = s0.last_job_id + 1 := by
    intro s0 j h
    have hpair : post_job s0 jc cu n = (.ok j, (post_job s0 jc cu n).2) := by
      rw [← h]
    obtain ⟨-, hj, ht⟩ := post_job_ok hpair
    exact ⟨by rw [hj], by rw [ht]⟩
  refine ⟨?_, hpostc s, ?_, fun hr => reaches_counters_mono hr, ?_⟩
  · intro hreach
    have hinv := reachable_inv hreach
    exact ⟨fun i j hg => ⟨hinv.jobs_key i j hg, hinv.jobs_le i j hg⟩,
      fun i a hg => ⟨hinv.apps_key i a hg, hinv.apps_le i a hg⟩,
      values_ids_nodup s.jobs Job.id hinv.jobs_nd hinv.jobs_key,
      values_ids_nodup s.applications Application.id hinv.apps_nd hinv.apps_key⟩
  · intro a h
    have hpair : apply_for_job s ab cu n = (.ok a, (apply_for_job s ab cu n).2) := by
      rw [← h]
    obtain ⟨-, -, -, -, ha, ht⟩ := apply_for_job_ok hpair
    exact ⟨by rw [ha], by rw [ht]⟩
  · intro i hi hr j hok
    obtain ⟨hjid, -⟩ := hpostc t j hok
    have := (reaches_counters_mono hr).1
    omega

/-- Witness for C6 at the reachable state `stW`: fresh ids `2` (job) and `1`
(application), counters bumped, and id `1` (already allocated) is strictly
below the id of the next posted job. -/
theorem id_allocation_monotonic_witness :
    ((dictValues stW.jobs).map Job.id).Nodup ∧
    ((dictValues stW.applications).map Application.id).Nodup ∧
    (post_job stW jcW cuEw 9).2.last_job_id = stW.last_job_id + 1 ∧
    (apply_for_job stW ⟨1, "s@x", none⟩ cuSw 9).2.last_app_id = stW.last_app_id + 1 ∧
    1 < (⟨2, "T2", "D2", "ACME", "L2", ["ml"], some 1, some 2, "e@x", 9⟩ : Job).id := by
  obtain ⟨hreach, hpost, -, -, hfresh⟩ :=
    id_allocation_monotonic stW stW jcW ⟨1, "s@x", none⟩ cuEw 9
  obtain ⟨-, -, happ, -, -⟩ :=
    id_allocation_monotonic stW stW jcW ⟨1, "s@x", none⟩ cuSw 9
  obtain ⟨-, -, hnd1, hnd2⟩ := hreach reachable_stW
  exact ⟨hnd1, hnd2,
    (hpost ⟨2, "T2", "D2", "ACME", "L2", ["ml"], some 1, some 2, "e@x", 9⟩ rfl).2,
    (happ ⟨1, 1, "s@x", none, "pending", 9⟩ rfl).2,
    hfresh 1 (by decide) (Reaches.refl stW)
      ⟨2, "T2", "D2", "ACME", "L2", ["ml"], some 1, some 2, "e@x", 9⟩ rfl⟩

end JobPortal
